import Mathlib

/-!
Shallow embedding of `src/RingBuffer.cpp` (primary, complete implementation;
`src/unnamed/part_000` is a near-duplicate variant of the same structure).

The buffer state carries the four cursor/count fields together with the
storage block.  The C++ indexes the storage modulo `capacity` (the internal
capacity, set to `requested + 1` by the constructor), so the model's
`storage` list has one slot per addressable index, i.e. `capacity` slots.
The number of slots the constructor actually allocates (`new T[capacity]`,
without the `+ 1`) is recorded separately as `allocBlockSize`.

C++ exceptions are modelled with `Except`: `logic_error("empty buffer")` /
`logic_error("empty")` becomes `RBError.emptyBuffer` and
`out_of_range("index too large")` becomes `RBError.indexOutOfRange`.
Mutating member functions become state-passing functions; a throw returns
the state reached at the throw point (in this code every throw happens
before any field mutation of the same call).
-/

/-- Error kinds raised by the buffer: `logic_error` from `get`/`pop` on an
empty buffer (the spec's `EmptyBufferError`) and `out_of_range` from `at`
(the spec's `IndexOutOfRange`). -/
inductive RBError where
  | emptyBuffer
  | indexOutOfRange
  deriving DecidableEq, Repr

instance {ε α : Type} [DecidableEq ε] [DecidableEq α] : DecidableEq (Except ε α) :=
  fun a b =>
    match a, b with
    | .error x, .error y =>
        if h : x = y then isTrue (congrArg Except.error h)
        else isFalse (fun hc => h (Except.error.inj hc))
    | .ok x, .ok y =>
        if h : x = y then isTrue (congrArg Except.ok h)
        else isFalse (fun hc => h (Except.ok.inj hc))
    | .error _, .ok _ => isFalse (fun hc => Except.noConfusion hc)
    | .ok _, .error _ => isFalse (fun hc => Except.noConfusion hc)

/-- State of `RingBuffer<T>` from `src/RingBuffer.cpp`: the storage block
(one entry per addressable index `0 .. capacity-1`), the `read` and `write`
cursors, the element count `length`, and the internal `capacity`
(requested capacity plus one). -/
structure RingBuffer (α : Type) where
  storage : List α
  read : Nat
  write : Nat
  length : Nat
  capacity : Nat
  deriving DecidableEq, Repr

namespace RingBuffer

variable {α : Type}

/-- Number of slots allocated by the capacity constructor:
`buffer(new T[capacity], default_delete<T[]>{})` allocates exactly the
requested `capacity` slots (no `+ 1`), even though the `capacity` field is
set to `capacity + 1` and indices range over `[0, capacity + 1)`. -/
def allocBlockSize (c : Nat) : Nat := c

/-- Capacity constructor `RingBuffer(size_t capacity)`: `read = write =
length = 0`, `capacity = capacity + 1`.  The storage is modelled with one
entry per addressable index (`capacity + 1` of them), holding the
default-initialized content of `new T[...]` as `default`. -/
def construct (α : Type) [Inhabited α] (c : Nat) : RingBuffer α :=
  { storage := List.replicate (c + 1) default
    read := 0
    write := 0
    length := 0
    capacity := c + 1 }

/-- `size()`: returns `length`. -/
def size (b : RingBuffer α) : Nat := b.length

/-- `empty()`: `length == 0`. -/
def empty (b : RingBuffer α) : Bool := b.length == 0

/-- `full()`: `read == (write + 1) % capacity`. -/
def full (b : RingBuffer α) : Bool := b.read == (b.write + 1) % b.capacity

/-- `overflow(int n)`: returns `n % capacity`.  All call sites pass
non-negative values below `2 * capacity`, so plain `Nat` arithmetic is
faithful. -/
def overflow (b : RingBuffer α) (n : Nat) : Nat := n % b.capacity

/-- `operator[](size_t idx)`: unchecked access at physical slot
`overflow(read + idx)`, i.e. `(read + idx) % capacity`. -/
def opIndex [Inhabited α] (b : RingBuffer α) (i : Nat) : α :=
  b.storage.getD ((b.read + i) % b.capacity) default

/-- `at(size_t idx)` as written in the source: the element is returned when
`empty() || !(0 <= idx && idx < length)` and `out_of_range` is thrown
otherwise (the bounds check is inverted relative to the spec; `0 <= idx` is
vacuous for the unsigned `idx`). -/
def atIdx [Inhabited α] (b : RingBuffer α) (i : Nat) : Except RBError α :=
  if b.empty || !(i < b.length) then .ok (b.opIndex i)
  else .error .indexOutOfRange

/-- `put(T const&, true_type/false_type)`: both overloads store the value
into the slot `*end()`, i.e. physical index `write` (`memcpy` for trivially
copyable `T`, copy assignment otherwise — same observable effect). -/
def putSlot (b : RingBuffer α) (v : α) : RingBuffer α :=
  { b with storage := b.storage.set b.write v }

/-- `put(T const& value)`: guarded by `if (!full())`; when not full it
stores `value` at slot `write`, then sets `write = overflow(write + 1)` and
increments `length`.  When full it does nothing. -/
def put (b : RingBuffer α) (v : α) : RingBuffer α :=
  if !b.full then
    { (b.putSlot v) with
        write := (b.write + 1) % b.capacity
        length := b.length + 1 }
  else b

/-- `get()`: when not empty, reads `at(read)` (note: the physical cursor
`read` is passed to `at`, whose inverted check throws `out_of_range`
whenever `read < length`), then advances `read` and decrements `length`;
when empty, throws `logic_error("empty buffer")`.  The returned state is
the state at return/throw time. -/
def get [Inhabited α] (b : RingBuffer α) : Except RBError α × RingBuffer α :=
  if !b.empty then
    match b.atIdx b.read with
    | .ok tmp =>
        (.ok tmp, { b with read := (b.read + 1) % b.capacity, length := b.length - 1 })
    | .error e => (.error e, b)
  else (.error .emptyBuffer, b)

/-- `pop()`: when not empty, advances `read = overflow(read + 1)` and
decrements `length`; when empty, throws `logic_error("empty")`. -/
def pop (b : RingBuffer α) : Except RBError Unit × RingBuffer α :=
  if !b.empty then
    (.ok (), { b with read := (b.read + 1) % b.capacity, length := b.length - 1 })
  else (.error .emptyBuffer, b)

/-- Iterated `put` of the same value, used by the fill constructor's loop
`for (int i = 0; i < capacity; ++i) put(value)`. -/
def putN (b : RingBuffer α) (v : α) : Nat → RingBuffer α
  | 0 => b
  | n + 1 => (b.putN v n).put v

/-- Fill constructor `RingBuffer(size_t capacity, T const& value)`:
delegates to the capacity constructor, then performs `capacity` calls of
`put(value)` (the loop bound is the shadowing parameter, not the member). -/
def constructFill [Inhabited α] (c : Nat) (v : α) : RingBuffer α :=
  (construct α c).putN v c

end RingBuffer

/-- Index state of `ring_iterator<T>`: the current index `idx` and the
wrap modulus `cycle`.  The storage pointer is omitted: the claims about the
iterator concern only its index arithmetic. -/
structure RingIter where
  idx : Nat
  cycle : Nat
  deriving DecidableEq, Repr

namespace RingIter

/-- While-loop of `operator-=`: `while (tmpidx < 0) tmpidx = cycle -
(abs(tmpidx) - 1);`.  For `tmpidx < 0` the body computes
`cycle + tmpidx + 1` (within the range exercised by the claims,
`|tmpidx| - 1 < cycle`, the C++ `size_t` subtraction does not wrap, so
plain `Int` arithmetic is faithful). -/
def minusLoop (cycle : Nat) (tmp : Int) : Int :=
  if tmp < 0 then minusLoop cycle ((cycle : Int) - ((tmp.natAbs - 1 : Nat) : Int))
  else tmp
termination_by (-tmp).toNat
decreasing_by
  omega

/-- `operator-=(int offset)`: `tmpidx = int(idx) - offset`, run the wrap
loop, store the result back into the unsigned `idx` (non-negative in the
claims' range, so `Int.toNat` is faithful). -/
def subAssign (it : RingIter) (offset : Int) : RingIter :=
  { it with idx := (minusLoop it.cycle ((it.idx : Int) - offset)).toNat }

/-- `operator+=(int offset)` for a non-negative offset:
`idx = (idx + offset) % cycle`. -/
def addAssign (it : RingIter) (n : Nat) : RingIter :=
  { it with idx := (it.idx + n) % it.cycle }

end RingIter

namespace RingBuffer

/-- States reachable from the capacity constructor by `put`, `get` and
`pop` (on an error, `get`/`pop` leave the state unchanged, so the
post-state of every call is included unconditionally). -/
inductive Reachable (α : Type) [Inhabited α] : RingBuffer α → Prop where
  | construct (c : Nat) : Reachable α (RingBuffer.construct α c)
  | put (b : RingBuffer α) (v : α) : Reachable α b → Reachable α (b.put v)
  | get (b : RingBuffer α) : Reachable α b → Reachable α (b.get).2
  | pop (b : RingBuffer α) : Reachable α b → Reachable α (b.pop).2

/-- Structural invariant maintained by all operations: the storage covers
every addressable index, the cursors are reduced modulo `capacity`, the
count stays below `capacity` (that is, at most the requested capacity),
and `write` sits `length` slots after `read` around the ring. -/
def Inv {α : Type} (b : RingBuffer α) : Prop :=
  b.storage.length = b.capacity ∧ 0 < b.capacity ∧ b.read < b.capacity ∧
    b.write < b.capacity ∧ b.length < b.capacity ∧
    b.write = (b.read + b.length) % b.capacity

variable {α : Type}

lemma mod_two_cases (a n : Nat) (h : a < 2 * n) :
    a % n = if a < n then a else a - n := by
  split
  · exact Nat.mod_eq_of_lt (by assumption)
  · have hn : n ≤ a := by omega
    rw [Nat.mod_eq_sub_mod hn, Nat.mod_eq_of_lt (by omega)]

lemma full_iff_length {b : RingBuffer α} (h : Inv b) :
    b.full = true ↔ b.length = b.capacity - 1 := by
  obtain ⟨-, hc, hr, hw, hl, hrw⟩ := h
  have hstep : (b.write + 1) % b.capacity = (b.read + (b.length + 1)) % b.capacity := by
    rw [hrw, Nat.mod_add_mod, Nat.add_assoc]
  have hcase := mod_two_cases (b.read + (b.length + 1)) b.capacity (by omega)
  simp only [full, beq_iff_eq, hstep, hcase]
  split <;> omega

lemma empty_iff_read_eq_write {b : RingBuffer α} (h : Inv b) :
    b.empty = true ↔ b.read = b.write := by
  obtain ⟨-, hc, hr, hw, hl, hrw⟩ := h
  have hcase := mod_two_cases (b.read + b.length) b.capacity (by omega)
  simp only [empty, beq_iff_eq, hrw, hcase]
  split <;> omega

lemma inv_construct [Inhabited α] (c : Nat) : Inv (construct α c) := by
  refine ⟨by simp [construct], by simp [construct], by simp [construct],
    by simp [construct], by simp [construct], by simp [construct]⟩

/-- Unfolding of `put` on a non-full buffer. -/
lemma put_eq_of_not_full {b : RingBuffer α} (v : α) (hf : b.full = false) :
    b.put v = ⟨b.storage.set b.write v, b.read, (b.write + 1) % b.capacity,
      b.length + 1, b.capacity⟩ := by
  simp [put, putSlot, hf]

/-- Unfolding of `put` on a full buffer: silent no-op. -/
lemma put_eq_of_full {b : RingBuffer α} (v : α) (hf : b.full = true) :
    b.put v = b := by
  simp [put, hf]

/-- Unfolding of `pop` on a non-empty buffer. -/
lemma pop_eq_of_not_empty {b : RingBuffer α} (he : b.empty = false) :
    b.pop = (.ok (), ⟨b.storage, (b.read + 1) % b.capacity, b.write,
      b.length - 1, b.capacity⟩) := by
  simp [pop, he]

/-- Unfolding of `pop` on an empty buffer. -/
lemma pop_eq_of_empty {b : RingBuffer α} (he : b.empty = true) :
    b.pop = (.error .emptyBuffer, b) := by
  simp [pop, he]

lemma inv_put {b : RingBuffer α} (v : α) (h : Inv b) : Inv (b.put v) := by
  by_cases hf : b.full = true
  · rw [put_eq_of_full v hf]
    exact h
  · have hf' : b.full = false := by simpa using hf
    have hlen : b.length ≠ b.capacity - 1 := fun hl => hf ((full_iff_length h).mpr hl)
    obtain ⟨hs, hc, hr, hw, hl, hrw⟩ := h
    rw [put_eq_of_not_full v hf']
    refine ⟨by simpa using hs, hc, hr, Nat.mod_lt _ hc,
      (show b.length + 1 < b.capacity by omega), ?_⟩
    show (b.write + 1) % b.capacity = (b.read + (b.length + 1)) % b.capacity
    rw [hrw, Nat.mod_add_mod, Nat.add_assoc]

lemma inv_pop {b : RingBuffer α} (h : Inv b) : Inv (b.pop).2 := by
  by_cases he : b.empty = true
  · rw [pop_eq_of_empty he]
    exact h
  · have he' : b.empty = false := by simpa using he
    have hlen : b.length ≠ 0 := by simpa [empty] using he
    obtain ⟨hs, hc, hr, hw, hl, hrw⟩ := h
    rw [pop_eq_of_not_empty he']
    refine ⟨hs, hc, Nat.mod_lt _ hc, hw,
      (show b.length - 1 < b.capacity by omega), ?_⟩
    show b.write = ((b.read + 1) % b.capacity + (b.length - 1)) % b.capacity
    rw [Nat.mod_add_mod, hrw]
    congr 1
    omega

/-- Unfolding of `get` on an empty buffer. -/
lemma get_eq_of_empty [Inhabited α] {b : RingBuffer α} (he : b.empty = true) :
    b.get = (.error .emptyBuffer, b) := by
  simp [get, he]

/-- Unfolding of `get` when `at(read)` throws (non-empty, `read < length`). -/
lemma get_eq_of_at_error [Inhabited α] {b : RingBuffer α} {e : RBError}
    (he : b.empty = false) (hat : b.atIdx b.read = .error e) :
    b.get = (.error e, b) := by
  simp [get, he, hat]

/-- Unfolding of `get` when `at(read)` returns (non-empty, `read >= length`). -/
lemma get_eq_of_at_ok [Inhabited α] {b : RingBuffer α} {x : α}
    (he : b.empty = false) (hat : b.atIdx b.read = .ok x) :
    b.get = (.ok x, ⟨b.storage, (b.read + 1) % b.capacity, b.write,
      b.length - 1, b.capacity⟩) := by
  simp [get, he, hat]

lemma inv_get [Inhabited α] {b : RingBuffer α} (h : Inv b) : Inv (b.get).2 := by
  by_cases he : b.empty = true
  · rw [get_eq_of_empty he]
    exact h
  · have he' : b.empty = false := by simpa using he
    have hlen : b.length ≠ 0 := by simpa [empty] using he
    rcases hat : b.atIdx b.read with e | x
    · rw [get_eq_of_at_error he' hat]
      exact h
    · obtain ⟨hs, hc, hr, hw, hl, hrw⟩ := h
      rw [get_eq_of_at_ok he' hat]
      refine ⟨hs, hc, Nat.mod_lt _ hc, hw,
        (show b.length - 1 < b.capacity by omega), ?_⟩
      show b.write = ((b.read + 1) % b.capacity + (b.length - 1)) % b.capacity
      rw [Nat.mod_add_mod, hrw]
      congr 1
      omega

lemma reachable_inv [Inhabited α] {b : RingBuffer α} (h : Reachable α b) : Inv b := by
  induction h with
  | construct c => exact inv_construct c
  | put b v _ ih => exact inv_put v ih
  | get b _ ih => exact inv_get ih
  | pop b _ ih => exact inv_pop ih

end RingBuffer

namespace RingBuffer

lemma atIdx_error_eq [Inhabited α] {b : RingBuffer α} {i : Nat} {e : RBError}
    (h : b.atIdx i = .error e) : e = RBError.indexOutOfRange := by
  unfold atIdx at h
  split at h
  · cases h
  · cases h
    rfl

/-- C1: the claim says `at(idx)` fails with `IndexOutOfRange` iff
`idx >= length` (in particular `at(0)` fails on an empty buffer) and serves
the element when `idx < length`.  The code's bounds check is inverted: on a
buffer holding one element, `at(0)` (in-range) throws and `at(1)`
(out-of-range) serves, and on an empty buffer `at(0)` serves. -/
theorem at_inverted_bounds_check :
    ((construct Nat 2).put 5).length = 1 ∧
    ((construct Nat 2).put 5).atIdx 0 = Except.error RBError.indexOutOfRange ∧
    (((construct Nat 2).put 5).atIdx 1).isOk = true ∧
    (construct Nat 2).length = 0 ∧
    ((construct Nat 2).atIdx 0).isOk = true := by
  decide

/-- C2: the claim says `construct(c)` allocates `c + 1` slots; the
constructor in `src/RingBuffer.cpp` executes `new T[capacity]` and so
allocates exactly `c` slots, even though it sets the internal capacity to
`c + 1` (the cursor/count fields are initialized as claimed). -/
theorem construct_alloc_undersized :
    allocBlockSize 1 = 1 ∧ allocBlockSize 1 ≠ 1 + 1 ∧
    (construct Nat 1).capacity = 2 ∧ (construct Nat 1).read = 0 ∧
    (construct Nat 1).write = 0 ∧ (construct Nat 1).length = 0 := by
  decide

/-- C3: the claim says `get()` on a non-empty buffer returns the element at
slot `read` and raises no error.  On the buffer obtained by one `put` the
code's `get` calls `at(read)`, whose inverted bounds check throws
`out_of_range` (`read = 0 < 1 = length`), so `get` raises
`IndexOutOfRange` on a non-empty buffer. -/
theorem get_nonempty_raises_out_of_range :
    ((construct Nat 3).put 7).empty = false ∧
    (((construct Nat 3).put 7).get).1 = Except.error RBError.indexOutOfRange ∧
    (((construct Nat 3).put 7).get).2 = (construct Nat 3).put 7 := by
  decide

/-- C5: `get` and `pop` raise `EmptyBufferError` (the `logic_error` of the
source) exactly on an empty buffer, and on an empty buffer they leave the
state unchanged.  (On a non-empty buffer `get` may raise `IndexOutOfRange`
via the broken `at`, but never `EmptyBufferError`.) -/
theorem get_pop_emptyBufferError_iff_empty [Inhabited α] (b : RingBuffer α) :
    ((b.get).1 = Except.error RBError.emptyBuffer ↔ b.empty = true) ∧
    ((b.pop).1 = Except.error RBError.emptyBuffer ↔ b.empty = true) ∧
    (b.empty = false ∨ ((b.get).2 = b ∧ (b.pop).2 = b)) := by
  by_cases he : b.empty = true
  · rw [get_eq_of_empty he, pop_eq_of_empty he]
    exact ⟨by simp [he], by simp [he], Or.inr ⟨rfl, rfl⟩⟩
  · have he' : b.empty = false := by simpa using he
    refine ⟨?_, ?_, Or.inl he'⟩
    · rcases hat : b.atIdx b.read with e | x
      · rw [get_eq_of_at_error he' hat]
        simp [atIdx_error_eq hat, he']
      · rw [get_eq_of_at_ok he' hat]
        simp [he']
    · rw [pop_eq_of_not_empty he']
      simp [he']

/-- C6: in every reachable state, `full()` holds iff
`read == (write + 1) % capacity` iff `length` equals the requested
capacity (`capacity - 1`), and `empty()` holds iff `length == 0` iff
`read == write`. -/
theorem full_empty_characterization [Inhabited α] (b : RingBuffer α)
    (h : Reachable α b) :
    (b.full = true ↔ b.read = (b.write + 1) % b.capacity) ∧
    (b.full = true ↔ b.length = b.capacity - 1) ∧
    (b.empty = true ↔ b.length = 0) ∧
    (b.empty = true ↔ b.read = b.write) := by
  have hInv := reachable_inv h
  exact ⟨by simp [full], full_iff_length hInv, by simp [empty],
    empty_iff_read_eq_write hInv⟩

/-- Witness for C6 at the reachable state `construct(2); put(5)`. -/
theorem full_empty_characterization_witness :
    (((construct Nat 2).put 5).full = true ↔
      ((construct Nat 2).put 5).read
        = (((construct Nat 2).put 5).write + 1) % ((construct Nat 2).put 5).capacity) ∧
    (((construct Nat 2).put 5).full = true ↔
      ((construct Nat 2).put 5).length = ((construct Nat 2).put 5).capacity - 1) ∧
    (((construct Nat 2).put 5).empty = true ↔ ((construct Nat 2).put 5).length = 0) ∧
    (((construct Nat 2).put 5).empty = true ↔
      ((construct Nat 2).put 5).read = ((construct Nat 2).put 5).write) :=
  full_empty_characterization _ (Reachable.put _ 5 (Reachable.construct 2))

/-- C7: in every reachable state, a buffer holding `capacity_requested`
(`capacity - 1`) elements is exactly a `full()` buffer, and `put` on it is
a silent no-op (so `size()` and every stored element, hence also the
result of `at(0)`, are unchanged); on a non-full buffer `put` writes the
value into slot `write`, advances `write` modulo `capacity`, and
increments `length`. -/
theorem put_drop_when_full [Inhabited α] (b : RingBuffer α) (v : α)
    (h : Reachable α b) :
    (b.full = true ↔ b.length = b.capacity - 1) ∧
    b.put v = if b.length = b.capacity - 1 then b
      else ⟨b.storage.set b.write v, b.read, (b.write + 1) % b.capacity,
        b.length + 1, b.capacity⟩ := by
  have hInv := reachable_inv h
  have hiff := full_iff_length hInv
  refine ⟨hiff, ?_⟩
  by_cases hf : b.full = true
  · rw [if_pos (hiff.mp hf), put_eq_of_full v hf]
  · have hf' : b.full = false := by simpa using hf
    rw [if_neg (fun hl => hf (hiff.mpr hl)), put_eq_of_not_full v hf']

/-- Witness for C7 at the reachable full buffer `construct(1); put(9)`:
`put(7)` on it hits the no-op branch. -/
theorem put_drop_when_full_witness :
    (((construct Nat 1).put 9).full = true ↔
      ((construct Nat 1).put 9).length = ((construct Nat 1).put 9).capacity - 1) ∧
    ((construct Nat 1).put 9).put 7 =
      if ((construct Nat 1).put 9).length = ((construct Nat 1).put 9).capacity - 1
      then (construct Nat 1).put 9
      else ⟨(((construct Nat 1).put 9).storage).set ((construct Nat 1).put 9).write 7,
        ((construct Nat 1).put 9).read,
        (((construct Nat 1).put 9).write + 1) % ((construct Nat 1).put 9).capacity,
        ((construct Nat 1).put 9).length + 1, ((construct Nat 1).put 9).capacity⟩ :=
  put_drop_when_full _ 7 (Reachable.put _ 9 (Reachable.construct 1))

/-- C8: the claim says three `put`s on an empty buffer of capacity 3 are
drained in FIFO order by three `get`s.  The first `get` already raises
`IndexOutOfRange` (via the inverted `at(read)` check) instead of returning
the first value. -/
theorem fifo_first_get_raises :
    ((((construct Nat 3).put 1).put 2).put 3).size = 3 ∧
    ((((construct Nat 3).put 1).put 2).put 3).empty = false ∧
    (((((construct Nat 3).put 1).put 2).put 3).get).1
      = Except.error RBError.indexOutOfRange := by
  decide

/-- C9: after the fill constructor with `(1, 42)`, `size`, `full` and
`empty` behave as claimed, but `at(0)` raises `IndexOutOfRange` instead of
returning 42, again because of the inverted bounds check. -/
theorem constructFill_at_raises :
    (constructFill 1 (42 : Nat)).size = 1 ∧
    (constructFill 1 (42 : Nat)).full = true ∧
    (constructFill 1 (42 : Nat)).empty = false ∧
    (constructFill 1 (42 : Nat)).atIdx 0 = Except.error RBError.indexOutOfRange := by
  decide

/-- C10: frame conditions, with the two parts quantified independently.
On every non-empty buffer `b` (full or not), `pop` updates exactly `read`
and `length`, preserving `write`, `capacity` and the whole storage; on
every non-full buffer `b2` (empty or not), `put v` updates exactly
`write`, `length` and the single storage slot at index `write` (which
receives `v`), preserving `read`, `capacity` and every other slot `j`. -/
theorem pop_put_frame [Inhabited α] (b b2 : RingBuffer α) (v : α) (j : Nat)
    (hne : b.empty = false) (hnf : b2.full = false)
    (hw : b2.write < b2.storage.length) (hj : j ≠ b2.write) :
    (b.pop).2.read = (b.read + 1) % b.capacity ∧ (b.pop).2.length = b.length - 1 ∧
    (b.pop).2.write = b.write ∧ (b.pop).2.capacity = b.capacity ∧
    (b.pop).2.storage = b.storage ∧
    (b2.put v).write = (b2.write + 1) % b2.capacity ∧ (b2.put v).length = b2.length + 1 ∧
    (b2.put v).read = b2.read ∧ (b2.put v).capacity = b2.capacity ∧
    (b2.put v).storage[j]? = b2.storage[j]? ∧
    (b2.put v).storage[b2.write]? = some v := by
  rw [pop_eq_of_not_empty hne, put_eq_of_not_full v hnf]
  refine ⟨rfl, rfl, rfl, rfl, rfl, rfl, rfl, rfl, rfl, ?_, ?_⟩
  · exact List.getElem?_set_ne (Ne.symm hj)
  · exact List.getElem?_set_self hw

/-- Witness for C10: `pop` on the full (and hence non-empty) buffer
`construct(1); put(9)`, and `put 9` on the empty (and hence non-full)
buffer `construct(2)`, with untouched slot 1. -/
theorem pop_put_frame_witness :
    ((((construct Nat 1).put 9).pop).2.read
      = (((construct Nat 1).put 9).read + 1) % ((construct Nat 1).put 9).capacity) ∧
    ((((construct Nat 1).put 9).pop).2.length = ((construct Nat 1).put 9).length - 1) ∧
    ((((construct Nat 1).put 9).pop).2.write = ((construct Nat 1).put 9).write) ∧
    ((((construct Nat 1).put 9).pop).2.capacity = ((construct Nat 1).put 9).capacity) ∧
    ((((construct Nat 1).put 9).pop).2.storage = ((construct Nat 1).put 9).storage) ∧
    (((construct Nat 2).put 9).write
      = ((construct Nat 2).write + 1) % (construct Nat 2).capacity) ∧
    (((construct Nat 2).put 9).length = (construct Nat 2).length + 1) ∧
    (((construct Nat 2).put 9).read = (construct Nat 2).read) ∧
    (((construct Nat 2).put 9).capacity = (construct Nat 2).capacity) ∧
    (((construct Nat 2).put 9).storage[(1 : Nat)]?
      = (construct Nat 2).storage[(1 : Nat)]?) ∧
    (((construct Nat 2).put 9).storage[(construct Nat 2).write]? = some 9) :=
  pop_put_frame _ _ 9 1 (by decide) (by decide) (by decide) (by decide)

end RingBuffer

/-- C4: the claim says `cursor -= n` computes the true non-negative
remainder `((index - n) % modulus + modulus) % modulus`, which lies in
`[0, modulus)`, and that `+= n` undoes it.  At `index = 0`, `n = 1`,
`modulus = 5` the loop body `cycle - (abs(tmpidx) - 1)` yields 5 (one more
than the true remainder 4, and outside `[0, 5)`), and the subsequent
`+= 1` gives 1 instead of restoring 0. -/
theorem subAssign_off_by_one :
    (RingIter.subAssign ⟨0, 5⟩ 1).idx = 5 ∧
    ((((0 : Int) - 1) % 5 + 5) % 5 = 4) ∧
    (((RingIter.subAssign ⟨0, 5⟩ 1).addAssign 1).idx = 1) := by
  have h1 : RingIter.minusLoop 5 (-1) = 5 := by
    rw [RingIter.minusLoop]
    norm_num
    rw [RingIter.minusLoop]
    norm_num
  refine ⟨?_, by decide, ?_⟩
  · show (RingIter.minusLoop 5 ((0 : Int) - 1)).toNat = 5
    norm_num [h1]
    decide
  · show ((RingIter.subAssign ⟨0, 5⟩ 1).idx + 1) % 5 = 1
    have h2 : (RingIter.subAssign ⟨0, 5⟩ 1).idx = 5 := by
      show (RingIter.minusLoop 5 ((0 : Int) - 1)).toNat = 5
      norm_num [h1]
      decide
    rw [h2]
